import Mathlib

/-!
# infinite_core: process lifecycle scaffold

A shallow embedding of `Engine/Core/Server/server.h`, `server.cpp`, `Main.cpp`
and the six wrapper headers under `Project/`.

* `Engine.GameServer` is a record of the three data members `isRunning`,
  `processType`, `processId` (the `impl` member holds only a reference back
  to its owner).
* Standard output / error and the calls of the per tick hooks are recorded in
  a trace of `Event`s carried by `Engine.State`.
* `Impl::Run` is a loop that need not terminate; it is embedded as the
  small-step function `Engine.Impl.RunStep` over a control location `Loc`.
* A C string is the list of its bytes (`CString`).
-/

namespace Engine

/-- The enumeration `ServerProcessType` of `server.h`. -/
inductive ServerProcessType where
  | Master
  | World
  | Gate
  | DB
  | Login
  | Game
  deriving DecidableEq, Repr

/-- The data members of `class GameServer` (`server.h`, lines 37-40), in
declaration order without `impl`, which carries no data of its own. -/
structure GameServer where
  isRunning : Bool
  processType : ServerProcessType
  processId : Nat
  deriving DecidableEq, Repr

/-- Inline getter `GetProcessType` of `server.h`. -/
def GameServer.GetProcessType (s : GameServer) : ServerProcessType := s.processType

/-- Inline getter `GetProcessId` of `server.h`. -/
def GameServer.GetProcessId (s : GameServer) : Nat := s.processId

/-- The lines written to the standard streams, kept in structured form. -/
inductive Output where
  | initializing (typeName : String) (pid : Nat)
  | shuttingDown (typeName : String) (pid : Nat)
  | receivedSignal (signal : Int)
  | failedToInitialize
  deriving DecidableEq, Repr

/-- The text of an output line as the source builds it with `<<`. -/
def Output.render : Output → String
  | .initializing n pid => "Initializing " ++ n ++ " server (PID: " ++ toString pid ++ ")..."
  | .shuttingDown n pid => "Shutting down " ++ n ++ " server (PID: " ++ toString pid ++ ")..."
  | .receivedSignal sig => "Received signal: " ++ toString sig
  | .failedToInitialize => "Failed to initialize server"

/-- Observable events: a line on `std::cout`, a line on `std::cerr`, the call
of the update hook of a role, and a `sleep_for` of the given milliseconds. -/
inductive Event where
  | out (line : Output)
  | err (line : Output)
  | update (type : ServerProcessType)
  | sleep (ms : Nat)
  deriving DecidableEq, Repr

/-- Where the thread that owns the lifecycle stands: outside `Run`, or inside
the loop of `Impl::Run` before the test of the flag, before the hook, or
before the sleep. -/
inductive Loc where
  | outside
  | atCheck
  | atHook
  | atSleep
  deriving DecidableEq, Repr

/-- An execution state: the object, the control location and the trace. -/
structure State where
  server : GameServer
  loc : Loc
  trace : List Event
  deriving DecidableEq, Repr

/-- Number of update hook calls recorded in a trace. -/
def updateCount : List Event → Nat
  | [] => 0
  | .update _ :: es => updateCount es + 1
  | _ :: es => updateCount es

/-- Number of teardown lines recorded in a trace. -/
def teardownCount : List Event → Nat
  | [] => 0
  | .out (.shuttingDown _ _) :: es => teardownCount es + 1
  | _ :: es => teardownCount es

/-! ## Construction (`server.cpp`, lines 11-17 and 109-114) -/

/-- Constructor `Impl::Impl(GameServer& server)`: stores `dis(gen)`, here the
parameter `rnd`, into `server.processId`. -/
def Impl.ctor (rnd : Nat) (server : GameServer) : GameServer :=
  { server with processId := rnd }

/-- Constructor `GameServer::GameServer(ServerProcessType type)`. The members
are initialised in their declaration order `impl`, `isRunning`,
`processType`, `processId`; `raw` is the content of the storage before any
initialiser has run. -/
def GameServer.ctor (type : ServerProcessType) (rnd : Nat) (raw : GameServer) : GameServer :=
  let s1 := Impl.ctor rnd raw
  let s2 := { s1 with isRunning := false }
  let s3 := { s2 with processType := type }
  let s4 := { s3 with processId := 0 }
  s4

/-- A lifecycle right after construction, with the trace written so far. -/
def fresh (type : ServerProcessType) (rnd : Nat) (raw : GameServer) (tr : List Event) : State :=
  { server := GameServer.ctor type rnd raw, loc := .outside, trace := tr }

/-! ## Role selection (`Main.cpp`, lines 35-43) -/

/-- A C string: its bytes. -/
abbrev CString := List Nat

/-- The bytes of an ASCII string literal. -/
def lit (s : String) : CString := s.toList.map Char.toNat

/-- The role chosen by `main` from `argc`/`argv`; `argc` is `argv.length`. -/
def selectRole (argv : List CString) : ServerProcessType :=
  if argv.length > 1 then
    let type := argv.getD 1 []
    if type = lit "world" then .World
    else if type = lit "gate" then .Gate
    else if type = lit "db" then .DB
    else if type = lit "login" then .Login
    else if type = lit "game" then .Game
    else .Master
  else .Master

/-! ## The implementation class (`server.cpp`, lines 9-107) -/

/-- Member `Impl::GetProcessTypeName`. -/
def Impl.GetProcessTypeName : ServerProcessType → String
  | .Master => "Master"
  | .World => "World"
  | .Gate => "Gate"
  | .DB => "Database"
  | .Login => "Login"
  | .Game => "Game"

/-- Stub `Impl::InitializeMaster`. -/
def Impl.InitializeMaster : Bool := true
/-- Stub `Impl::InitializeWorld`. -/
def Impl.InitializeWorld : Bool := true
/-- Stub `Impl::InitializeGate`. -/
def Impl.InitializeGate : Bool := true
/-- Stub `Impl::InitializeDB`. -/
def Impl.InitializeDB : Bool := true
/-- Stub `Impl::InitializeLogin`. -/
def Impl.InitializeLogin : Bool := true
/-- Stub `Impl::InitializeGame`. -/
def Impl.InitializeGame : Bool := true

/-- Member `Impl::Initialize`: one line on `std::cout`, then the switch over
the role. -/
def Impl.Initialize (st : State) : Bool × State :=
  let st1 := { st with trace := st.trace ++
    [.out (.initializing (Impl.GetProcessTypeName st.server.processType) st.server.processId)] }
  match st.server.processType with
  | .Master => (Impl.InitializeMaster, st1)
  | .World => (Impl.InitializeWorld, st1)
  | .Gate => (Impl.InitializeGate, st1)
  | .DB => (Impl.InitializeDB, st1)
  | .Login => (Impl.InitializeLogin, st1)
  | .Game => (Impl.InitializeGame, st1)

/-- Hook `Impl::UpdateMaster` (empty body). -/
def Impl.UpdateMaster (s : GameServer) : GameServer := s
/-- Hook `Impl::UpdateWorld` (empty body). -/
def Impl.UpdateWorld (s : GameServer) : GameServer := s
/-- Hook `Impl::UpdateGate` (empty body). -/
def Impl.UpdateGate (s : GameServer) : GameServer := s
/-- Hook `Impl::UpdateDB` (empty body). -/
def Impl.UpdateDB (s : GameServer) : GameServer := s
/-- Hook `Impl::UpdateLogin` (empty body). -/
def Impl.UpdateLogin (s : GameServer) : GameServer := s
/-- Hook `Impl::UpdateGame` (empty body). -/
def Impl.UpdateGame (s : GameServer) : GameServer := s

/-- The switch in the body of the loop of `Impl::Run`. -/
def Impl.dispatchUpdate (s : GameServer) : GameServer :=
  match s.processType with
  | .Master => Impl.UpdateMaster s
  | .World => Impl.UpdateWorld s
  | .Gate => Impl.UpdateGate s
  | .DB => Impl.UpdateDB s
  | .Login => Impl.UpdateLogin s
  | .Game => Impl.UpdateGame s

/-- The tick interval of `Impl::Run` in milliseconds. -/
def tickMs : Nat := 16

/-- One step of the loop `while (server.isRunning) { switch ...; sleep_for(16ms); }`
of `Impl::Run`. At `atCheck` the flag is read: the loop proceeds to the hook
or returns. At `atHook` the hook of the role is called (recorded as an
`update` event). At `atSleep` the thread sleeps and goes back to the test.
Outside the loop there is nothing to do. -/
def Impl.RunStep (st : State) : State :=
  match st.loc with
  | .outside => st
  | .atCheck =>
    if st.server.isRunning then { st with loc := .atHook } else { st with loc := .outside }
  | .atHook =>
    { server := Impl.dispatchUpdate st.server, loc := .atSleep,
      trace := st.trace ++ [.update st.server.processType] }
  | .atSleep =>
    { st with loc := .atCheck, trace := st.trace ++ [.sleep tickMs] }

/-- Member `Impl::Shutdown`: one line on `std::cout`. -/
def Impl.Shutdown (st : State) : State :=
  { st with trace := st.trace ++
    [.out (.shuttingDown (Impl.GetProcessTypeName st.server.processType) st.server.processId)] }

/-! ## The public members (`server.cpp`, lines 122-138) -/

/-- Member `GameServer::Initialize`. -/
def GameServer.Initialize (st : State) : Bool × State := Impl.Initialize st

/-- Member `GameServer::Run` up to the entry of the loop: when the flag is
clear it is set and control enters `Impl::Run` (location `atCheck`);
otherwise the call returns at once. The calling thread is outside the loop. -/
def GameServer.Run (st : State) : State :=
  if !st.server.isRunning then
    { st with server := { st.server with isRunning := true }, loc := .atCheck }
  else st

/-- Member `GameServer::Shutdown`. -/
def GameServer.Shutdown (st : State) : State :=
  if st.server.isRunning then
    Impl.Shutdown { st with server := { st.server with isRunning := false } }
  else st

/-! ## Signals and the entry point (`Main.cpp`) -/

/-- Function `SignalHandler` when `gServer` points to the lifecycle of `st`:
one line on `std::cout`, then `gServer->Shutdown()`. -/
def SignalHandler (signal : Int) (st : State) : State :=
  GameServer.Shutdown { st with trace := st.trace ++ [.out (.receivedSignal signal)] }

/-- What can happen while the owner thread is inside `Run`: the loop makes a
step, a registered signal is delivered, or another context calls
`Shutdown()`. -/
inductive Action where
  | tick
  | signal (n : Int)
  | shutdown
  deriving DecidableEq, Repr

/-- Effect of one action. -/
def perform : Action → State → State
  | .tick, st => Impl.RunStep st
  | .signal n, st => SignalHandler n st
  | .shutdown, st => GameServer.Shutdown st

/-- Effect of a schedule of actions, left to right. -/
def exec : List Action → State → State
  | [], st => st
  | a :: as, st => exec as (perform a st)

/-- Number of loop steps in a schedule. -/
def tickCount : List Action → Nat
  | [] => 0
  | .tick :: as => tickCount as + 1
  | _ :: as => tickCount as

/-- How far `main` has come: it has returned with an exit status, or control
is inside `gServer->Run()`. -/
inductive MainResult where
  | exited (code : Nat) (st : State)
  | running (st : State)
  deriving DecidableEq, Repr

/-- Function `main` up to the entry of the loop, with the member `Initialize`
as a parameter: role selection, construction, initialisation, then either
the diagnostic on `std::cerr` and `return 1`, or the call of `Run`. The
registration of the handlers has no effect of its own and exceptions are not
modelled, so the `catch` branch does not appear. -/
def mainWith (initFn : State → Bool × State) (argv : List CString) (rnd : Nat)
    (raw : GameServer) : MainResult :=
  let serverType := selectRole argv
  let st := fresh serverType rnd raw []
  let r := initFn st
  if !r.1 then
    .exited 1 { r.2 with trace := r.2.trace ++ [.err .failedToInitialize] }
  else
    .running (GameServer.Run r.2)

/-- The rest of `main` under a schedule: the loop runs until it returns, then
`return 0`. The result is the exit status, if the process has exited by the
end of the schedule, and the last state. -/
def runLoop : List Action → State → Option Nat × State
  | [], st => (if st.loc = .outside then some 0 else none, st)
  | a :: as, st => if st.loc = .outside then (some 0, st) else runLoop as (perform a st)

/-- The whole process under a schedule of loop steps and signals. -/
def mainExec (initFn : State → Bool × State) (argv : List CString) (rnd : Nat)
    (raw : GameServer) (sched : List Action) : Option Nat × State :=
  match mainWith initFn argv rnd raw with
  | .exited code st => (some code, st)
  | .running st => runLoop sched st

/-- Function `main` of `Main.cpp`. -/
def main (argv : List CString) (rnd : Nat) (raw : GameServer) (sched : List Action) :
    Option Nat × State :=
  mainExec GameServer.Initialize argv rnd raw sched

/-- The member `Initialize` made to report the given outcome: the source's
effects, with the returned value replaced. -/
def InitializeReturning (outcome : Bool) (st : State) : Bool × State :=
  (outcome, (GameServer.Initialize st).2)

/-- The loop of `Impl::Run` left alone for `n` steps. -/
def runSteps : Nat → State → State
  | 0, st => st
  | n + 1, st => runSteps n (Impl.RunStep st)

end Engine

/-! ## The wrapper classes under `Project/` -/

namespace Game

open Engine

/-- The six classes `Game::MasterServer` .. `Game::GameServer`. -/
inductive Wrapper where
  | MasterServer
  | WorldServer
  | GateServer
  | DBServer
  | LoginServer
  | GameServer
  deriving DecidableEq, Repr

/-- The name each class is declared with; inside the class it denotes the
class itself. -/
def Wrapper.className : Wrapper → String
  | .MasterServer => "MasterServer"
  | .WorldServer => "WorldServer"
  | .GateServer => "GateServer"
  | .DBServer => "DBServer"
  | .LoginServer => "LoginServer"
  | .GameServer => "GameServer"

/-- The name of the base class `Engine::GameServer`, visible in every wrapper
through inheritance unless the wrapper's own name hides it. -/
def baseClassName : String := "GameServer"

/-- The identifier written in the initialiser list of the default
constructor: every header writes `GameServer(...)`. -/
def Wrapper.memInitId : Wrapper → String
  | .MasterServer => "GameServer"
  | .WorldServer => "GameServer"
  | .GateServer => "GameServer"
  | .DBServer => "GameServer"
  | .LoginServer => "GameServer"
  | .GameServer => "GameServer"

/-- The argument written in the initialiser list of the default constructor. -/
def Wrapper.memInitArg : Wrapper → ServerProcessType
  | .MasterServer => .Master
  | .WorldServer => .World
  | .GateServer => .Gate
  | .DBServer => .DB
  | .LoginServer => .Login
  | .GameServer => .Game

/-- What an identifier of an initialiser list denotes. -/
inductive InitTarget where
  | self
  | base
  deriving DecidableEq, Repr

/-- Lookup of the identifier in the scope of the class: the class's own name
first, then the names inherited from the base. -/
def Wrapper.lookup (w : Wrapper) (id : String) : Option InitTarget :=
  if id = w.className then some .self
  else if id = baseClassName then some .base
  else none

/-- Default construction of a wrapper. When the initialiser names the base,
`Engine::GameServer(ServerProcessType)` builds the object. When it names the
class itself it asks for a constructor of the wrapper taking a
`ServerProcessType`; a wrapper declares only its default constructor, so
there is none and no object is built (`none`). -/
def Wrapper.construct (w : Wrapper) (rnd : Nat) (raw : Engine.GameServer) :
    Option Engine.GameServer :=
  match w.lookup w.memInitId with
  | some .base => some (Engine.GameServer.ctor w.memInitArg rnd raw)
  | some .self => none
  | none => none

end Game

open Engine

/-! ## Measures and scenarios used in the statements -/

/-- Number of `sleep_for` calls recorded in a trace. -/
def sleepCount : List Event → Nat
  | [] => 0
  | .sleep _ :: es => sleepCount es + 1
  | _ :: es => sleepCount es

/-- Loop steps left before `Impl::Run` returns once the flag is clear. -/
def ticksToExit : Loc → Nat
  | .outside => 0
  | .atCheck => 1
  | .atSleep => 2
  | .atHook => 3

/-- Hook calls still owed by the tick in progress. -/
def pendingUpdates : Loc → Nat
  | .atHook => 1
  | _ => 0

/-- Sleeps still owed by the tick in progress. -/
def pendingSleeps : Loc → Nat
  | .atHook => 1
  | .atSleep => 1
  | _ => 0

/-- A Master lifecycle that was constructed, initialised, run for one full
tick, stopped by `Shutdown()` from another context, and whose loop has
returned. -/
def stoppedMaster : State :=
  exec [.tick, .tick, .tick, .shutdown, .tick]
    (GameServer.Run (GameServer.Initialize (fresh .Master 7 ⟨false, .Master, 0⟩ [])).2)

/-- A Gate lifecycle inside its first tick, about to call the hook. -/
def gateInTick : State :=
  exec [.tick] (GameServer.Run (GameServer.Initialize (fresh .Gate 7 ⟨false, .Master, 0⟩ [])).2)

/-! ## Auxiliary facts -/

theorem updateCount_append (xs ys : List Event) :
    updateCount (xs ++ ys) = updateCount xs + updateCount ys := by
  induction xs with
  | nil => simp [updateCount]
  | cons x xs ih =>
    cases x <;> simp [updateCount, ih]
    omega

theorem teardownCount_append (xs ys : List Event) :
    teardownCount (xs ++ ys) = teardownCount xs + teardownCount ys := by
  induction xs with
  | nil => simp [teardownCount]
  | cons x xs ih =>
    rcases x with (l | l | t | m)
    · cases l <;> simp [teardownCount, ih]
      omega
    all_goals simp [teardownCount, ih]

theorem dispatchUpdate_id (s : GameServer) : Impl.dispatchUpdate s = s := by
  unfold Impl.dispatchUpdate
  cases s.processType <;> rfl

theorem Initialize_eq (st : State) :
    GameServer.Initialize st = (true, { st with trace := st.trace ++
      [.out (.initializing (Impl.GetProcessTypeName st.server.processType)
        st.server.processId)] }) := by
  unfold GameServer.Initialize Impl.Initialize
  cases st.server.processType <;> rfl

theorem Shutdown_of_not_running (st : State) (h : st.server.isRunning = false) :
    GameServer.Shutdown st = st := by
  simp [GameServer.Shutdown, h]

/-! ## Role selection -/

/-- C1: the role selected by `main` is World, Gate, DB, Login or Game exactly
when `argv[1]` exists and equals, byte for byte, "world", "gate", "db",
"login" or "game"; in every other case, a missing argument included, it is
Master. The examples "bogus", "World" and the empty string select Master. -/
theorem selectRole_exact (argv : List CString) :
    (selectRole argv = .World ↔ argv[1]? = some (lit "world")) ∧
    (selectRole argv = .Gate ↔ argv[1]? = some (lit "gate")) ∧
    (selectRole argv = .DB ↔ argv[1]? = some (lit "db")) ∧
    (selectRole argv = .Login ↔ argv[1]? = some (lit "login")) ∧
    (selectRole argv = .Game ↔ argv[1]? = some (lit "game")) ∧
    (selectRole argv = .Master ↔
      argv[1]? ∉ [some (lit "world"), some (lit "gate"), some (lit "db"),
        some (lit "login"), some (lit "game")]) ∧
    (∀ prog : CString, selectRole [prog, lit "bogus"] = .Master ∧
      selectRole [prog, lit "World"] = .Master ∧ selectRole [prog, lit ""] = .Master ∧
      selectRole [prog] = .Master) ∧
    selectRole [] = .Master := by
  have hw : lit "world" = [119, 111, 114, 108, 100] := by decide
  have hg : lit "gate" = [103, 97, 116, 101] := by decide
  have hd : lit "db" = [100, 98] := by decide
  have hl : lit "login" = [108, 111, 103, 105, 110] := by decide
  have hm : lit "game" = [103, 97, 109, 101] := by decide
  have hb : lit "bogus" = [98, 111, 103, 117, 115] := by decide
  have hW : lit "World" = [87, 111, 114, 108, 100] := by decide
  have he : lit "" = [] := by decide
  rw [hw, hg, hd, hl, hm, hb, hW, he]
  refine ⟨?_, ?_, ?_, ?_, ?_, ?_, ?_, ?_⟩
  all_goals try (rcases argv with _ | ⟨a, _ | ⟨b, rest⟩⟩ <;>
    simp [selectRole, hw, hg, hd, hl, hm] <;> (try split_ifs) <;> simp_all)

/-! ## Construction -/

/-- C2 (evaluation of the code): whatever the role, the generated value and
the previous content of the storage, the constructed object reports process
id 0: the initialiser `processId(0)` runs after the constructor of `Impl` has
stored the generated value. In particular this holds for generated value
12345 and role Master. -/
theorem ctor_processId_is_zero (type : ServerProcessType) (rnd : Nat) (raw : GameServer) :
    (GameServer.ctor type rnd raw).GetProcessId = 0 ∧
    (Impl.ctor rnd raw).GetProcessId = rnd ∧
    (GameServer.ctor .Master 12345 raw).GetProcessId = 0 := by
  exact ⟨rfl, rfl, rfl⟩

/-! ## Shutdown -/

/-- C3: `Shutdown()` on a lifecycle that is not running changes nothing: the
whole state (flag, role, identity, trace) is the same, so the flag stays
false and no teardown line is written. A constructed lifecycle and a
constructed and initialised one are not running, for every role. -/
theorem Shutdown_not_running_noop (st : State) (h : st.server.isRunning = false) :
    GameServer.Shutdown st = st ∧
    (GameServer.Shutdown st).server.isRunning = false ∧
    (GameServer.Shutdown st).server.GetProcessType = st.server.GetProcessType ∧
    (GameServer.Shutdown st).server.GetProcessId = st.server.GetProcessId ∧
    teardownCount (GameServer.Shutdown st).trace = teardownCount st.trace ∧
    (∀ type rnd raw tr,
      GameServer.Shutdown (fresh type rnd raw tr) = fresh type rnd raw tr ∧
      GameServer.Shutdown (GameServer.Initialize (fresh type rnd raw tr)).2 =
        (GameServer.Initialize (fresh type rnd raw tr)).2) := by
  have e := Shutdown_of_not_running st h
  refine ⟨e, ?_, ?_, ?_, ?_, ?_⟩
  · rw [e]; exact h
  · rw [e]
  · rw [e]
  · rw [e]
  · intro type rnd raw tr
    constructor
    · exact Shutdown_of_not_running _ rfl
    · apply Shutdown_of_not_running
      rw [Initialize_eq]
      rfl

theorem Shutdown_not_running_noop_witness :
    (fresh .Gate 77 ⟨true, .Master, 5⟩ []).server.isRunning = false ∧
    GameServer.Shutdown (fresh .Gate 77 ⟨true, .Master, 5⟩ []) =
      ⟨⟨false, .Gate, 0⟩, .outside, []⟩ :=
  ⟨by decide, (Shutdown_not_running_noop (fresh .Gate 77 ⟨true, .Master, 5⟩ []) (by decide)).1⟩

/-- C4: `Shutdown()` is idempotent on every state: a second call right after
the first changes nothing, the first call appends the teardown line exactly
when the lifecycle was running, and so the two calls together write at most
one teardown line. -/
theorem Shutdown_idempotent (st : State) :
    GameServer.Shutdown (GameServer.Shutdown st) = GameServer.Shutdown st ∧
    (GameServer.Shutdown st).server.isRunning = false ∧
    (GameServer.Shutdown st).trace = st.trace ++
      (if st.server.isRunning then
        [.out (.shuttingDown (Impl.GetProcessTypeName st.server.processType)
          st.server.processId)]
       else []) ∧
    teardownCount (GameServer.Shutdown (GameServer.Shutdown st)).trace ≤
      teardownCount st.trace + 1 := by
  cases h : st.server.isRunning
  · have e := Shutdown_of_not_running st h
    simp [e, h]
  · have e : GameServer.Shutdown st = Impl.Shutdown
        { st with server := { st.server with isRunning := false } } := by
      simp [GameServer.Shutdown, h]
    have e2 : GameServer.Shutdown (GameServer.Shutdown st) = GameServer.Shutdown st := by
      apply Shutdown_of_not_running
      rw [e]
      rfl
    rw [e2, e]
    simp [Impl.Shutdown, teardownCount_append, teardownCount]

/-! ## Initialisation -/

/-- C5: for each of the six roles, `Initialize()` on a freshly constructed
lifecycle returns true, leaves the running flag false and leaves the role as
constructed. -/
theorem Initialize_fresh_true (type : ServerProcessType) (rnd : Nat) (raw : GameServer)
    (tr : List Event) :
    (GameServer.Initialize (fresh type rnd raw tr)).1 = true ∧
    (GameServer.Initialize (fresh type rnd raw tr)).2.server.isRunning = false ∧
    (GameServer.Initialize (fresh type rnd raw tr)).2.server.GetProcessType = type ∧
    (fresh type rnd raw tr).server.GetProcessType = type ∧
    (GameServer.Initialize (fresh type rnd raw tr)).2.loc = .outside := by
  rw [Initialize_eq]
  exact ⟨rfl, rfl, rfl, rfl, rfl⟩

/-! ## Entry point -/

/-- C6: when `Initialize()` reports failure, `main` returns 1 right after the
diagnostic on the error stream, for every argument vector (hence every
selected role) and every schedule of signals and loop steps: control never
enters `Run`, no update hook is called, and the running flag is false. -/
theorem main_init_failure_exit_1 (argv : List CString) (rnd : Nat) (raw : GameServer)
    (sched : List Action) :
    mainWith (InitializeReturning false) argv rnd raw =
      .exited 1 ⟨⟨false, selectRole argv, 0⟩, .outside,
        [.out (.initializing (Impl.GetProcessTypeName (selectRole argv)) 0),
         .err .failedToInitialize]⟩ ∧
    (mainExec (InitializeReturning false) argv rnd raw sched).1 = some 1 ∧
    (mainExec (InitializeReturning false) argv rnd raw sched).2.server.isRunning = false ∧
    (mainExec (InitializeReturning false) argv rnd raw sched).2.loc = .outside ∧
    updateCount (mainExec (InitializeReturning false) argv rnd raw sched).2.trace = 0 ∧
    (∀ type : ServerProcessType, ∃ args, selectRole args = type) ∧
    mainWith (InitializeReturning true) argv rnd raw = mainWith GameServer.Initialize argv rnd raw ∧
    (∃ st, mainWith (InitializeReturning true) argv rnd raw = .running st) := by
  have e : mainWith (InitializeReturning false) argv rnd raw =
      .exited 1 ⟨⟨false, selectRole argv, 0⟩, .outside,
        [.out (.initializing (Impl.GetProcessTypeName (selectRole argv)) 0),
         .err .failedToInitialize]⟩ := by
    simp [mainWith, InitializeReturning, Initialize_eq, fresh, GameServer.ctor, Impl.ctor]
  have e3 : mainWith (InitializeReturning true) argv rnd raw =
      mainWith GameServer.Initialize argv rnd raw := by
    simp [mainWith, InitializeReturning, Initialize_eq]
  refine ⟨e, ?_, ?_, ?_, ?_, ?_, e3, ?_⟩
  · simp [mainExec, e]
  · simp [mainExec, e]
  · simp [mainExec, e]
  · simp [mainExec, e, updateCount]
  rotate_left
  · exact ⟨_, by simp [mainWith, InitializeReturning]; rfl⟩
  · intro type
    cases type
    · exact ⟨[], by decide⟩
    · exact ⟨[[], lit "world"], by decide⟩
    · exact ⟨[[], lit "gate"], by decide⟩
    · exact ⟨[[], lit "db"], by decide⟩
    · exact ⟨[[], lit "login"], by decide⟩
    · exact ⟨[[], lit "game"], by decide⟩

/-! ## Wrapper classes -/

/-- C7 (evaluation of the code): in `Game::GameServer` the initialiser
`GameServer(...)` denotes the wrapper itself, which has no constructor taking
a role, so default construction builds no object; the five other wrappers
reach `Engine::GameServer(role)` and yield their own role with the running
flag false. -/
theorem wrapper_construct_eval (rnd : Nat) (raw : GameServer) :
    Game.Wrapper.construct .GameServer rnd raw = none ∧
    Game.Wrapper.lookup .GameServer (Game.Wrapper.memInitId .GameServer) = some .self ∧
    Game.Wrapper.construct .MasterServer rnd raw = some ⟨false, .Master, 0⟩ ∧
    Game.Wrapper.construct .WorldServer rnd raw = some ⟨false, .World, 0⟩ ∧
    Game.Wrapper.construct .GateServer rnd raw = some ⟨false, .Gate, 0⟩ ∧
    Game.Wrapper.construct .DBServer rnd raw = some ⟨false, .DB, 0⟩ ∧
    Game.Wrapper.construct .LoginServer rnd raw = some ⟨false, .Login, 0⟩ := by
  refine ⟨?_, ?_, ?_, ?_, ?_, ?_, ?_⟩ <;>
    simp [Game.Wrapper.construct, Game.Wrapper.lookup, Game.Wrapper.memInitId,
      Game.Wrapper.className, Game.baseClassName, Game.Wrapper.memInitArg,
      GameServer.ctor, Impl.ctor]

/-! ## The run loop -/

theorem sleepCount_append (xs ys : List Event) :
    sleepCount (xs ++ ys) = sleepCount xs + sleepCount ys := by
  induction xs with
  | nil => simp [sleepCount]
  | cons x xs ih =>
    cases x <;> simp [sleepCount, ih]
    omega

theorem perform_stopped (a : Action) (st : State) (h : st.server.isRunning = false) :
    (perform a st).server.isRunning = false ∧
    ticksToExit (perform a st).loc = ticksToExit st.loc - (if a = .tick then 1 else 0) ∧
    updateCount (perform a st).trace + pendingUpdates (perform a st).loc =
      updateCount st.trace + pendingUpdates st.loc ∧
    sleepCount (perform a st).trace + pendingSleeps (perform a st).loc =
      sleepCount st.trace + pendingSleeps st.loc := by
  obtain ⟨srv, loc, tr⟩ := st
  simp only at h
  cases a with
  | tick =>
    cases loc <;>
      simp [perform, Impl.RunStep, h, dispatchUpdate_id, ticksToExit, pendingUpdates,
        pendingSleeps, updateCount_append, sleepCount_append, updateCount, sleepCount]
  | signal n =>
    simp [perform, SignalHandler, GameServer.Shutdown, h, updateCount_append,
      sleepCount_append, updateCount, sleepCount]
  | shutdown =>
    simp [perform, GameServer.Shutdown, h]

theorem exec_stopped (sched : List Action) (st : State) (h : st.server.isRunning = false) :
    (exec sched st).server.isRunning = false ∧
    ticksToExit (exec sched st).loc = ticksToExit st.loc - tickCount sched ∧
    updateCount (exec sched st).trace + pendingUpdates (exec sched st).loc =
      updateCount st.trace + pendingUpdates st.loc ∧
    sleepCount (exec sched st).trace + pendingSleeps (exec sched st).loc =
      sleepCount st.trace + pendingSleeps st.loc := by
  induction sched generalizing st with
  | nil => simp [exec, tickCount, h]
  | cons a as ih =>
    obtain ⟨p1, p2, p3, p4⟩ := perform_stopped a st h
    obtain ⟨q1, q2, q3, q4⟩ := ih (perform a st) p1
    refine ⟨q1, ?_, ?_, ?_⟩
    · simp only [exec]
      rw [q2, p2]
      cases a <;> simp [tickCount]
      omega
    · simp only [exec]
      rw [q3, p3]
    · simp only [exec]
      rw [q4, p4]

theorem stop_request (a : Action) (st : State) (ha : a ≠ .tick) :
    (perform a st).server.isRunning = false ∧ (perform a st).loc = st.loc ∧
    updateCount (perform a st).trace = updateCount st.trace ∧
    sleepCount (perform a st).trace = sleepCount st.trace := by
  obtain ⟨srv, loc, tr⟩ := st
  cases a with
  | tick => exact absurd rfl ha
  | signal n =>
    cases h : srv.isRunning <;>
      simp [perform, SignalHandler, GameServer.Shutdown, Impl.Shutdown, h, updateCount_append,
        sleepCount_append, updateCount, sleepCount]
  | shutdown =>
    cases h : srv.isRunning <;>
      simp [perform, GameServer.Shutdown, Impl.Shutdown, h, updateCount_append,
        sleepCount_append, updateCount, sleepCount]

theorem ticksToExit_eq_zero (l : Loc) (h : ticksToExit l = 0) : l = .outside := by
  cases l <;> simp [ticksToExit] at h ⊢

theorem ticksToExit_le (l : Loc) : ticksToExit l ≤ 3 := by
  cases l <;> simp [ticksToExit]

/-- C9: cooperative shutdown as an interleaving of loop steps with stop
requests (`Shutdown()` directly or through the signal handler). A stop
request clears the running flag and leaves the loop where it is. Under every
later schedule the flag stays clear; whenever the loop stands at its flag
test the next step leaves the loop, so no further tick is started; at most
the hook and the sleep of the tick in progress are still executed; and after
three loop steps at the latest `Run()` has returned with the flag clear. -/
theorem cooperative_shutdown (st : State) (a : Action) (sched : List Action)
    (ha : a ≠ .tick) :
    (perform a st).server.isRunning = false ∧
    (perform a st).loc = st.loc ∧
    (exec sched (perform a st)).server.isRunning = false ∧
    ((exec sched (perform a st)).loc = .atCheck →
      (Impl.RunStep (exec sched (perform a st))).loc = .outside) ∧
    (Impl.RunStep (exec sched (perform a st))).loc ≠ .atHook ∧
    updateCount (exec sched (perform a st)).trace ≤
      updateCount st.trace + pendingUpdates st.loc ∧
    sleepCount (exec sched (perform a st)).trace ≤
      sleepCount st.trace + pendingSleeps st.loc ∧
    (ticksToExit st.loc ≤ tickCount sched →
      (exec sched (perform a st)).loc = .outside ∧
      updateCount (exec sched (perform a st)).trace =
        updateCount st.trace + pendingUpdates st.loc ∧
      sleepCount (exec sched (perform a st)).trace =
        sleepCount st.trace + pendingSleeps st.loc) ∧
    (3 ≤ tickCount sched → (exec sched (perform a st)).loc = .outside) := by
  obtain ⟨s1, s2, s3, s4⟩ := stop_request a st ha
  obtain ⟨e1, e2, e3, e4⟩ := exec_stopped sched (perform a st) s1
  rw [s2] at e2
  rw [s2, s3] at e3
  rw [s2, s4] at e4
  have hexit : ticksToExit st.loc ≤ tickCount sched →
      (exec sched (perform a st)).loc = .outside := by
    intro h
    apply ticksToExit_eq_zero
    omega
  refine ⟨s1, s2, e1, ?_, ?_, by omega, by omega, ?_, ?_⟩
  · intro hc
    simp [Impl.RunStep, hc, e1]
  · generalize exec sched (perform a st) = s at e1
    obtain ⟨srv, loc, tr⟩ := s
    simp only at e1
    cases loc <;> simp [Impl.RunStep, e1]
  · intro h
    have hl := hexit h
    rw [hl] at e3 e4
    have z1 : pendingUpdates Loc.outside = 0 := rfl
    have z2 : pendingSleeps Loc.outside = 0 := rfl
    rw [z1] at e3
    rw [z2] at e4
    exact ⟨hl, by omega, by omega⟩
  · intro h
    exact hexit (le_trans (ticksToExit_le st.loc) h)

theorem cooperative_shutdown_witness :
    Action.signal 2 ≠ Action.tick ∧
    gateInTick.server.isRunning = true ∧ gateInTick.loc = .atHook ∧
    (exec [.tick, .tick, .tick, .tick] (perform (.signal 2) gateInTick)).loc = .outside ∧
    updateCount (exec [.tick, .tick, .tick, .tick] (perform (.signal 2) gateInTick)).trace ≤
      updateCount gateInTick.trace + pendingUpdates gateInTick.loc :=
  ⟨by decide, by decide, by decide,
    (cooperative_shutdown gateInTick (.signal 2) [.tick, .tick, .tick, .tick] (by decide)).2.2.2.2.2.2.2.2
      (by decide),
    (cooperative_shutdown gateInTick (.signal 2) [.tick, .tick, .tick, .tick] (by decide)).2.2.2.2.2.1⟩

theorem RunStep_running (st : State) (h : st.server.isRunning = true)
    (hl : st.loc ≠ .outside) :
    (Impl.RunStep st).server.isRunning = true ∧ (Impl.RunStep st).loc ≠ .outside := by
  obtain ⟨srv, loc, tr⟩ := st
  simp only at h hl
  cases loc <;> simp_all [Impl.RunStep, dispatchUpdate_id]

theorem runSteps_running (n : Nat) (st : State) (h : st.server.isRunning = true)
    (hl : st.loc ≠ .outside) :
    (runSteps n st).server.isRunning = true ∧ (runSteps n st).loc ≠ .outside := by
  induction n generalizing st with
  | zero => exact ⟨h, hl⟩
  | succ n ih =>
    obtain ⟨r1, r2⟩ := RunStep_running st h hl
    exact ih (Impl.RunStep st) r1 r2

theorem runSteps_add (m n : Nat) (st : State) :
    runSteps (m + n) st = runSteps n (runSteps m st) := by
  induction m generalizing st with
  | zero => simp [runSteps]
  | succ m ih =>
    rw [Nat.succ_add]
    exact ih (Impl.RunStep st)

theorem runSteps_three (st : State) (h : st.server.isRunning = true) (hl : st.loc = .atCheck) :
    runSteps 3 st = { st with trace := st.trace ++
      [.update st.server.processType, .sleep tickMs] } := by
  obtain ⟨srv, loc, tr⟩ := st
  simp only at h hl
  subst hl
  simp [runSteps, Impl.RunStep, h, dispatchUpdate_id]

theorem runSteps_full_ticks (n : Nat) (st : State) (h : st.server.isRunning = true)
    (hl : st.loc = .atCheck) :
    (runSteps (3 * n) st).loc = .atCheck ∧ (runSteps (3 * n) st).server = st.server ∧
    updateCount (runSteps (3 * n) st).trace = updateCount st.trace + n ∧
    sleepCount (runSteps (3 * n) st).trace = sleepCount st.trace + n := by
  induction n generalizing st with
  | zero => simp [runSteps, hl]
  | succ n ih =>
    have e : 3 * (n + 1) = 3 + 3 * n := by omega
    rw [e, runSteps_add, runSteps_three st h hl]
    obtain ⟨i1, i2, i3, i4⟩ := ih { st with trace := st.trace ++
      [.update st.server.processType, .sleep tickMs] } h hl
    refine ⟨i1, i2, ?_, ?_⟩
    · rw [i3]
      simp [updateCount_append, updateCount]
      omega
    · rw [i4]
      simp [sleepCount_append, sleepCount]
      omega

theorem runLoop_ticks_running (n : Nat) (st : State) (h : st.server.isRunning = true)
    (hl : st.loc ≠ .outside) :
    (runLoop (List.replicate n .tick) st).1 = none := by
  induction n generalizing st with
  | zero => simp [runLoop, hl]
  | succ n ih =>
    obtain ⟨r1, r2⟩ := RunStep_running st h hl
    simp only [List.replicate, runLoop, hl, if_false]
    exact ih (perform .tick st) r1 r2

theorem main_enters_Run (argv : List CString) (rnd : Nat) (raw : GameServer) :
    mainWith GameServer.Initialize argv rnd raw =
      .running (GameServer.Run (GameServer.Initialize (fresh (selectRole argv) rnd raw [])).2) := by
  simp [mainWith, Initialize_eq]

/-- C10: left alone, `Run()` on a lifecycle that is not running never
returns. After any number `n` of loop steps the running flag is true and
control is still inside the loop; after `n` whole iterations (three steps
each) the loop is back at its flag test with the object unchanged, `n` hook
calls and `n` sleeps recorded; and `main` under a schedule of `n` loop steps
without any signal has not exited. -/
theorem Run_never_returns_alone (st : State) (n : Nat) (h : st.server.isRunning = false) :
    (runSteps n (GameServer.Run st)).server.isRunning = true ∧
    (runSteps n (GameServer.Run st)).loc ≠ .outside ∧
    (runSteps (3 * n) (GameServer.Run st)).loc = .atCheck ∧
    (runSteps (3 * n) (GameServer.Run st)).server = { st.server with isRunning := true } ∧
    updateCount (runSteps (3 * n) (GameServer.Run st)).trace = updateCount st.trace + n ∧
    sleepCount (runSteps (3 * n) (GameServer.Run st)).trace = sleepCount st.trace + n ∧
    (runLoop (List.replicate n .tick) (GameServer.Run st)).1 = none ∧
    (∀ argv rnd raw, (main argv rnd raw (List.replicate n .tick)).1 = none) := by
  have e : GameServer.Run st =
      { st with server := { st.server with isRunning := true }, loc := .atCheck } := by
    simp [GameServer.Run, h]
  have hr : (GameServer.Run st).server.isRunning = true := by rw [e]
  have hl : (GameServer.Run st).loc = .atCheck := by rw [e]
  have hl2 : (GameServer.Run st).loc ≠ .outside := by rw [hl]; decide
  obtain ⟨a1, a2⟩ := runSteps_running n _ hr hl2
  obtain ⟨b1, b2, b3, b4⟩ := runSteps_full_ticks n _ hr hl
  refine ⟨a1, a2, b1, ?_, ?_, ?_, runLoop_ticks_running n _ hr hl2, ?_⟩
  · rw [b2, e]
  · rw [b3, e]
  · rw [b4, e]
  · intro argv rnd raw
    simp only [main, mainExec, main_enters_Run]
    have hs : (GameServer.Initialize (fresh (selectRole argv) rnd raw [])).2.server.isRunning
        = false := by
      rw [Initialize_eq]
      rfl
    have e2 : GameServer.Run (GameServer.Initialize (fresh (selectRole argv) rnd raw [])).2 =
        { (GameServer.Initialize (fresh (selectRole argv) rnd raw [])).2 with
          server := { (GameServer.Initialize (fresh (selectRole argv) rnd raw [])).2.server with
            isRunning := true }, loc := .atCheck } := by
      simp [GameServer.Run, hs]
    apply runLoop_ticks_running
    · rw [e2]
    · rw [e2]
      intro hc
      cases hc

theorem Run_never_returns_alone_witness :
    (fresh .Login 9 ⟨true, .Master, 5⟩ []).server.isRunning = false ∧
    (runSteps 7 (GameServer.Run (fresh .Login 9 ⟨true, .Master, 5⟩ []))).server.isRunning = true ∧
    (runSteps 7 (GameServer.Run (fresh .Login 9 ⟨true, .Master, 5⟩ []))).loc ≠ .outside :=
  ⟨by decide,
    (Run_never_returns_alone (fresh .Login 9 ⟨true, .Master, 5⟩ []) 7 (by decide)).1,
    (Run_never_returns_alone (fresh .Login 9 ⟨true, .Master, 5⟩ []) 7 (by decide)).2.1⟩

/-! ## Restart -/

/-- C8 (counterexample): a Master lifecycle that has run one tick and was
stopped by `Shutdown()` has its flag clear and its loop returned; a further
call of `Run()` sets the flag again and the loop calls the hook once more. -/
theorem restart_after_shutdown :
    stoppedMaster.server.isRunning = false ∧ stoppedMaster.loc = .outside ∧
    teardownCount stoppedMaster.trace = 1 ∧ updateCount stoppedMaster.trace = 1 ∧
    (GameServer.Run stoppedMaster).server.isRunning = true ∧
    (GameServer.Run stoppedMaster).loc = .atCheck ∧
    updateCount (runSteps 2 (GameServer.Run stoppedMaster)).trace = 2 := by
  decide

/-- C8 (amended): on a lifecycle that is stopped (flag clear, control outside
the loop), `Initialize()`, `Shutdown()`, signals and loop steps keep the flag
clear, keep control outside the loop and call no update hook, for every
role; `Run()` is the one operation that sets the flag again, and it enters
the loop again. -/
theorem stopped_stays_stopped_except_Run (st : State) (sched : List Action)
    (h : st.server.isRunning = false) (hl : st.loc = .outside) :
    (GameServer.Initialize st).2.server.isRunning = false ∧
    (GameServer.Initialize st).2.loc = .outside ∧
    updateCount (GameServer.Initialize st).2.trace = updateCount st.trace ∧
    GameServer.Shutdown st = st ∧
    (exec sched st).server.isRunning = false ∧
    (exec sched st).loc = .outside ∧
    updateCount (exec sched st).trace = updateCount st.trace ∧
    (GameServer.Run st).server.isRunning = true ∧
    (GameServer.Run st).loc = .atCheck ∧
    (GameServer.Run st).server.GetProcessType = st.server.GetProcessType := by
  obtain ⟨e1, e2, e3, _⟩ := exec_stopped sched st h
  rw [hl] at e2 e3
  have z : ticksToExit Loc.outside = 0 := rfl
  rw [z, Nat.zero_sub] at e2
  have hout := ticksToExit_eq_zero _ e2
  rw [hout] at e3
  refine ⟨?_, ?_, ?_, Shutdown_of_not_running st h, e1, hout, ?_, ?_, ?_, ?_⟩
  · rw [Initialize_eq]
    exact h
  · rw [Initialize_eq]
    exact hl
  · rw [Initialize_eq]
    simp [updateCount_append, updateCount]
  · exact Nat.add_right_cancel e3
  · simp [GameServer.Run, h]
  · simp [GameServer.Run, h]
  · simp [GameServer.Run, h, GameServer.GetProcessType]

theorem stopped_stays_stopped_except_Run_witness :
    stoppedMaster.server.isRunning = false ∧ stoppedMaster.loc = .outside ∧
    (exec [.tick, .signal 15, .tick, .shutdown] stoppedMaster).server.isRunning = false ∧
    (GameServer.Run stoppedMaster).server.isRunning = true :=
  ⟨by decide, by decide,
    (stopped_stays_stopped_except_Run stoppedMaster [.tick, .signal 15, .tick, .shutdown]
      (by decide) (by decide)).2.2.2.2.1,
    (stopped_stays_stopped_except_Run stoppedMaster [.tick, .signal 15, .tick, .shutdown]
      (by decide) (by decide)).2.2.2.2.2.2.2.1⟩
